import Mathlib

/-
Verification of the Silent Stride routing core.

Shallow embedding of src/routing_engine.py, src/graph_processor.py and
src/utils.py.  Python floats are modelled by exact rationals; a float
that may be positive infinity (the time cost of a zero-speed edge) is
modelled by the type PFloat below.  Edge attribute dictionaries are
modelled as structures whose fields are Option-valued: a field holding
none models an absent dictionary key, matching the dict.get defaults
of the source.  Fallible operations return Except or Option.
-/

namespace SilentStride

/-- A Python value as stored in a graph attribute dictionary: None, a
boolean, an integer, a float, or a string.  These are the cases the
truthiness helper of utils.py distinguishes. -/
inductive PyVal where
  | pynone : PyVal
  | pybool : Bool → PyVal
  | pyint : Int → PyVal
  | pyfloat : ℚ → PyVal
  | pystr : String → PyVal
  deriving DecidableEq, Repr, Inhabited

/-- Embedding of utils._is_truthy: None is false, booleans are
themselves, numbers are nonzero, strings are compared lowercased
against the accepted spellings of true. -/
def _is_truthy : PyVal → Bool
  | PyVal.pynone => false
  | PyVal.pybool b => b
  | PyVal.pyint n => n != 0
  | PyVal.pyfloat q => q != 0
  | PyVal.pystr s => ["true", "1", "yes", "t", "1.0"].contains s.toLower

/-- One edge attribute dictionary as read by the routing engine.  A
field holding none models an absent key (dict.get then yields the
default written at the read site). -/
structure EdgeAttrs where
  time_cost_norm : Option ℚ := none
  noise_cost_norm : Option ℚ := none
  green_cover : Option PyVal := none
  is_junction : Option PyVal := none
  time_cost : Option ℚ := none
  noise_cost : Option ℚ := none
  length : Option ℚ := none
  deriving DecidableEq, Repr, Inhabited

/-- The preference vector held by RoutingEngine (fields w_time,
w_noise, prefer_parks, avoid_junctions of routing_engine.py). -/
structure Prefs where
  w_time : ℚ
  w_noise : ℚ
  prefer_parks : Bool
  avoid_junctions : Bool
  deriving DecidableEq, Repr

/-- Embedding of RoutingEngine._get_edge_cost (routing_engine.py,
lines 46-68): defaults 1.0 and 0.0 for the missing normalized costs,
the pure-peace branch for w_noise == 1.0, the blended base otherwise,
the 0.7 park discount, the 2.0 junction penalty, and the 1e-9 epsilon
replacing an exact zero when either normalized term is positive. -/
def _get_edge_cost (p : Prefs) (edge_data_dict : EdgeAttrs) : ℚ :=
  let time_cost := edge_data_dict.time_cost_norm.getD 1
  let noise_cost := edge_data_dict.noise_cost_norm.getD 0
  let base0 : ℚ :=
    if p.w_noise = 1 then noise_cost
    else p.w_time * time_cost + p.w_noise * noise_cost
  let base1 : ℚ :=
    if p.prefer_parks && _is_truthy (edge_data_dict.green_cover.getD PyVal.pynone) then
      base0 * (7 / 10)
    else base0
  let base2 : ℚ :=
    if p.avoid_junctions && _is_truthy (edge_data_dict.is_junction.getD PyVal.pynone) then
      base1 * 2
    else base1
  if base2 = 0 ∧ (0 < time_cost ∨ 0 < noise_cost) then 1 / 1000000000
  else base2

/-- The edge cost algorithm exactly as the specification words it
(spec section 4.1, the sentence quoted by claim C1): t and n with their
defaults, base chosen by the pure-peace test, base multiplied by the
park factor 0.7 and then by the junction factor 2.0, and the result
replaced by the epsilon 1e-9 when it is zero while t > 0 or n > 0.
Written with explicit multiplicative factors so that agreement with
the sequential updates of _get_edge_cost is a proved theorem, not a
definitional restatement. -/
def spec_edge_cost (p : Prefs) (e : EdgeAttrs) : ℚ :=
  let t := e.time_cost_norm.getD 1
  let n := e.noise_cost_norm.getD 0
  let base : ℚ := if p.w_noise = 1 then n else p.w_time * t + p.w_noise * n
  let park_factor : ℚ :=
    if p.prefer_parks && _is_truthy (e.green_cover.getD PyVal.pynone) then 7 / 10 else 1
  let junction_factor : ℚ :=
    if p.avoid_junctions && _is_truthy (e.is_junction.getD PyVal.pynone) then 2 else 1
  let result := base * park_factor * junction_factor
  if result = 0 ∧ (0 < t ∨ 0 < n) then 1 / 1000000000 else result

/-- Embedding of the quiet-hours test of find_route (routing_engine.py,
lines 105-108): hour in 0-7, 10-11, 15-16 or 22-23. -/
def is_quiet_hours (current_hour : ℤ) : Bool :=
  (decide (0 ≤ current_hour ∧ current_hour ≤ 7)) ||
  (decide (10 ≤ current_hour ∧ current_hour ≤ 11)) ||
  (decide (15 ≤ current_hour ∧ current_hour ≤ 16)) ||
  (decide (22 ≤ current_hour ∧ current_hour ≤ 23))

/-- The two possible values of the weight_function variable of
find_route: the raw attribute name time_cost handed to networkx, or
the bound method _get_edge_cost. -/
inductive WeightChoice where
  | timeCostAttr : WeightChoice
  | customCost : WeightChoice
  deriving DecidableEq, Repr

/-- Embedding of the weight selection of find_route (routing_engine.py,
lines 110-119): quiet hours always take the raw time_cost attribute;
during normal hours w_time >= 0.70 also takes it, and otherwise the
custom _get_edge_cost function is used. -/
def select_weight (p : Prefs) (current_hour : ℤ) : WeightChoice :=
  if is_quiet_hours current_hour then WeightChoice.timeCostAttr
  else if (7 / 10 : ℚ) ≤ p.w_time then WeightChoice.timeCostAttr
  else WeightChoice.customCost

/-- The per-edge weight A* minimizes once the choice is made.  For the
attribute choice, networkx reads attr.get with default 1; for the
custom choice it calls _get_edge_cost. -/
def search_edge_weight (p : Prefs) (current_hour : ℤ) (e : EdgeAttrs) : ℚ :=
  match select_weight p current_hour with
  | WeightChoice.timeCostAttr => e.time_cost.getD 1
  | WeightChoice.customCost => _get_edge_cost p e

/-- The analytics noise multiplier of find_route (routing_engine.py,
lines 136-139): 0.7 during quiet hours, 1.0 otherwise. -/
def analytics_noise_multiplier (is_quiet : Bool) : ℚ :=
  if is_quiet then 7 / 10 else 1

/-- The analytics record returned by find_route. -/
structure Analytics where
  time : ℚ
  distance : ℚ
  avg_noise : ℚ
  green_percent : ℚ
  deriving DecidableEq, Repr

/-- Embedding of the path-analysis loop of find_route
(routing_engine.py, lines 128-158), applied to the list of edge
attribute dictionaries read along the path: total raw time, total raw
length, multiplier-weighted raw noise, time on green-cover edges, and
the two guarded quotients. -/
def analyze_path (is_quiet : Bool) (path_edges : List EdgeAttrs) : Analytics :=
  let m := analytics_noise_multiplier is_quiet
  let total_time_sec := (path_edges.map (fun e => e.time_cost.getD 0)).sum
  let total_noise_weighted := (path_edges.map (fun e => e.noise_cost.getD 0 * m)).sum
  let total_length_m := (path_edges.map (fun e => e.length.getD 0)).sum
  let time_in_green :=
    ((path_edges.filter (fun e => _is_truthy (e.green_cover.getD PyVal.pynone))).map
      (fun e => e.time_cost.getD 0)).sum
  let avg_noise := if 0 < total_length_m then total_noise_weighted / total_length_m else 0
  let green_percent :=
    if 0 < total_time_sec then time_in_green / total_time_sec * 100 else 0
  { time := total_time_sec, distance := total_length_m,
    avg_noise := avg_noise, green_percent := green_percent }

/-- The road-network multigraph: a list of (u, v, parallel edge
attribute dictionaries) entries, the parallel edges listed in key
order so that position 0 is the edge of key 0. -/
structure Graph where
  edges : List (Nat × Nat × List EdgeAttrs)
  deriving DecidableEq, Repr, Inhabited

/-- G.get_edge_data(u, v): the keyed dictionary of parallel edges
between u and v, here the list of their attribute dictionaries. -/
def get_edge_data (g : Graph) (u v : Nat) : List EdgeAttrs :=
  match g.edges.find? (fun t => t.1 == u && t.2.1 == v) with
  | some t => t.2.2
  | none => []

/-- The mutable state of a RoutingEngine instance: the graph and the
four preference fields (routing_engine.py, lines 19-29). -/
structure EngineState where
  G : Graph
  w_time : ℚ
  w_noise : ℚ
  prefer_parks : Bool
  avoid_junctions : Bool
  deriving DecidableEq, Repr

/-- The preference vector currently held by an engine state. -/
def EngineState.prefs (s : EngineState) : Prefs :=
  { w_time := s.w_time, w_noise := s.w_noise,
    prefer_parks := s.prefer_parks, avoid_junctions := s.avoid_junctions }

/-- Embedding of RoutingEngine.set_preferences (routing_engine.py,
lines 31-36): the four fields are overwritten with the arguments,
with no validation of any kind. -/
def set_preferences (st : EngineState) (w_time w_noise : ℚ)
    (prefer_parks avoid_junctions : Bool) : EngineState :=
  { st with w_time := w_time, w_noise := w_noise,
            prefer_parks := prefer_parks, avoid_junctions := avoid_junctions }

/-- A geocoded location (latitude, longitude). -/
structure Loc where
  latitude : ℚ
  longitude : ℚ
  deriving DecidableEq, Repr

/-- The failures find_route can raise: ValueError with a message for
input errors, and the NetworkXNoPath failure of the search. -/
inductive RouteError where
  | valueError : String → RouteError
  | noPath : RouteError
  deriving DecidableEq, Repr

/-- The successful result of find_route: the node path, the analytics
record, and the geocoded start location.  The rendered geometry of
the source is outside the routing core. -/
structure RouteResult where
  path : List Nat
  analytics : Analytics
  start_location : ℚ × ℚ
  deriving DecidableEq, Repr

/-- Python truth test, not address, on an Optional string argument:
true for None and for the empty string. -/
def addr_missing : Option String → Bool
  | none => true
  | some s => s.isEmpty

/-- Embedding of RoutingEngine.find_route (routing_engine.py, lines
70-177), with the external collaborators passed as functions: geocode
models the Nominatim geocoder, nearest models ox.nearest_nodes, and
astar models nx.astar_path (none models NetworkXNoPath).  The wall
clock read when selected_hour is None is the clock_hour argument.
The method body never writes any engine field, so its value is a
plain function of the state; find_route below pairs it with the
unchanged state. -/
def find_route_result (st : EngineState) (geocode : String → Option Loc)
    (nearest : Loc → Nat)
    (astar : (EdgeAttrs → ℚ) → Nat → Nat → Option (List Nat))
    (start_address end_address : Option String)
    (selected_hour : Option ℤ) (clock_hour : ℤ) :
    Except RouteError RouteResult :=
  if addr_missing start_address || addr_missing end_address then
    Except.error (RouteError.valueError "Start and end addresses are required.")
  else
    match geocode (start_address.getD ""), geocode (end_address.getD "") with
    | some start_loc, some end_loc =>
      let start_node := nearest start_loc
      let end_node := nearest end_loc
      let current_hour := selected_hour.getD clock_hour
      let wf : EdgeAttrs → ℚ :=
        match select_weight st.prefs current_hour with
        | WeightChoice.timeCostAttr => fun e => e.time_cost.getD 1
        | WeightChoice.customCost => fun e => _get_edge_cost st.prefs e
      match astar wf start_node end_node with
      | none => Except.error RouteError.noPath
      | some path_nodes =>
        let path_edges := path_nodes.zip path_nodes.tail
        let edge_datas := path_edges.map (fun uv => (get_edge_data st.G uv.1 uv.2).headI)
        Except.ok
          { path := path_nodes,
            analytics := analyze_path (is_quiet_hours current_hour) edge_datas,
            start_location := (start_loc.latitude, start_loc.longitude) }
    | _, _ =>
      Except.error (RouteError.valueError "Could not geocode one or both addresses.")

/-- find_route as state transformer: the resulting engine state paired
with the outcome.  The source method performs no assignment to self,
so the state component is the input state. -/
def find_route (st : EngineState) (geocode : String → Option Loc)
    (nearest : Loc → Nat)
    (astar : (EdgeAttrs → ℚ) → Nat → Nat → Option (List Nat))
    (start_address end_address : Option String)
    (selected_hour : Option ℤ) (clock_hour : ℤ) :
    EngineState × Except RouteError RouteResult :=
  (st, find_route_result st geocode nearest astar start_address end_address
        selected_hour clock_hour)

/-- A Python float that is either finite or positive infinity, as
produced for time_cost by graph_processor.py (a zero-speed edge gets
float infinity). -/
inductive PFloat where
  | fin : ℚ → PFloat
  | inf : PFloat
  deriving DecidableEq, Repr, Inhabited

/-- Embedding of the time_cost computation of load_and_process_graph
(graph_processor.py, lines 66-70): infinite for zero speed, otherwise
seconds from length in meters and speed in km/h. -/
def edge_time_cost (speed_kph length_m : ℚ) : PFloat :=
  if speed_kph = 0 then PFloat.inf
  else PFloat.fin (length_m / 1000 / speed_kph * 3600)

/-- Embedding of the noise score table of load_and_process_graph
(graph_processor.py, lines 72-76): the initial value 5 is overwritten
for the three listed road classes. -/
def noise_score_of (road_type : String) : ℚ :=
  if road_type ∈ ["motorway", "primary", "trunk"] then 10
  else if road_type ∈ ["secondary", "tertiary"] then 7
  else if road_type ∈ ["residential", "living_street", "unclassified"] then 3
  else 5

/-- Embedding of the noise_cost assignment of load_and_process_graph
(graph_processor.py, lines 72-77): the highway attribute defaults to
the string residential when absent, and noise_cost is the score times
the length. -/
def edge_noise_cost (highway : Option String) (length_m : ℚ) : ℚ :=
  let road_type := highway.getD "residential"
  noise_score_of road_type * length_m

/-- The noise weight table as claim C7 words it, with weight 5 also
for an absent highway attribute.  Compared against edge_noise_cost,
whose source defaults an absent attribute to residential. -/
def claim_noise_weight (highway : Option String) : ℚ :=
  match highway with
  | none => 5
  | some r =>
    if r = "motorway" ∨ r = "primary" ∨ r = "trunk" then 10
    else if r = "secondary" ∨ r = "tertiary" then 7
    else if r = "residential" ∨ r = "living_street" ∨ r = "unclassified" then 3
    else 5

/-- The amended noise weight table: an absent highway attribute is
treated as residential and weighted 3; everything else as in C7. -/
def amended_noise_weight (highway : Option String) : ℚ :=
  match highway with
  | none => 3
  | some r =>
    if r = "motorway" ∨ r = "primary" ∨ r = "trunk" then 10
    else if r = "secondary" ∨ r = "tertiary" then 7
    else if r = "residential" ∨ r = "living_street" ∨ r = "unclassified" then 3
    else 5

/-- An edge as seen by the normalization pass of
load_and_process_graph: its raw time_cost (possibly infinite) and its
raw noise_cost. -/
structure RawEdge where
  time_cost : PFloat
  noise_cost : ℚ
  deriving DecidableEq, Repr

/-- An edge after normalization: the raw costs together with the two
normalized fields the pass writes. -/
structure NormEdge where
  time_cost : PFloat
  noise_cost : ℚ
  time_cost_norm : ℚ
  noise_cost_norm : ℚ
  deriving DecidableEq, Repr

/-- The list comprehension of graph_processor.py line 100: the finite
time_cost values of the graph, in edge order. -/
def finite_times (edges : List RawEdge) : List ℚ :=
  edges.filterMap (fun e =>
    match e.time_cost with
    | PFloat.fin q => some q
    | PFloat.inf => none)

/-- Python min over a list, none for the empty list on which Python
raises.  The theorems below only use it on provably nonempty lists. -/
def list_min : List ℚ → Option ℚ
  | [] => none
  | x :: xs => some (xs.foldl min x)

/-- Python max over a list, none for the empty list. -/
def list_max : List ℚ → Option ℚ
  | [] => none
  | x :: xs => some (xs.foldl max x)

/-- Embedding of the normalization pass of load_and_process_graph
(graph_processor.py, lines 100-118): min and max are taken over the
finite time values and over all noise values, each range is replaced
by 1.0 unless it is positive, infinite-time edges get
time_cost_norm 1.0, and every other normalized field is the min-max
rescaling.  The getD 0 defaults stand for Python min/max of an empty
list, which raises and is excluded by the hypotheses of the theorems
below.  The per-edge body of the loop is normalize_edge; the pass
itself is normalize_edges. -/
def normalize_edge (min_time range_time min_noise range_noise : ℚ)
    (e : RawEdge) : NormEdge :=
  { time_cost := e.time_cost,
    noise_cost := e.noise_cost,
    time_cost_norm :=
      match e.time_cost with
      | PFloat.inf => 1
      | PFloat.fin t => (t - min_time) / range_time,
    noise_cost_norm := (e.noise_cost - min_noise) / range_noise }

def normalize_edges (edges : List RawEdge) : List NormEdge :=
  let times := finite_times edges
  let noises := edges.map (fun e => e.noise_cost)
  let min_time := (list_min times).getD 0
  let max_time := (list_max times).getD 0
  let min_noise := (list_min noises).getD 0
  let max_noise := (list_max noises).getD 0
  let range_time := if 0 < max_time - min_time then max_time - min_time else 1
  let range_noise := if 0 < max_noise - min_noise then max_noise - min_noise else 1
  edges.map (normalize_edge min_time range_time min_noise range_noise)

/-- The networkx weight lookup for a string weight name over a
multigraph: the minimum of attr.get(name, 1) over the parallel edges
between one node pair.  This is the weight the A* search actually
minimizes when find_route passes the attribute name time_cost. -/
def nx_multi_attr_weight (attr : EdgeAttrs → Option ℚ) (parallel : List EdgeAttrs) :
    Option ℚ :=
  list_min (parallel.map (fun e => (attr e).getD 1))

/-- The parallel edge whose attributes the analytics loop of
find_route reads: get_edge_data(u, v)[0], the edge of key 0, i.e. the
first stored parallel edge. -/
def analytics_selected_edge (parallel : List EdgeAttrs) : EdgeAttrs :=
  parallel.headI

/-- A concrete two-edge graph with distinct finite time costs, used as
a witness input for the normalization theorem. -/
def demo_raw_edges : List RawEdge :=
  [{ time_cost := PFloat.fin 5, noise_cost := 2 },
   { time_cost := PFloat.fin 7, noise_cost := 6 }]

/-- A concrete graph whose finite time costs are all equal but which
also carries an infinite-time edge, used as the counterexample input
for claim C6. -/
def demo_inf_edges : List RawEdge :=
  [{ time_cost := PFloat.fin 5, noise_cost := 0 },
   { time_cost := PFloat.inf, noise_cost := 0 }]

/-- A concrete one-edge path with green cover, used as a witness input
for the analytics theorems. -/
def demo_path_edges : List EdgeAttrs :=
  [{ time_cost := some 10, length := some 5, noise_cost := some 2,
     green_cover := some (PyVal.pybool true) }]

/-- A concrete engine state over the empty graph, used as a witness
input for the find_route error theorem. -/
def demo_engine : EngineState :=
  { G := { edges := [] }, w_time := 1, w_noise := 0,
    prefer_parks := false, avoid_junctions := false }

/-- A geocoder that resolves nothing, modelling a failing Nominatim
lookup. -/
def demo_geocode : String → Option Loc := fun _ => none

/-- A trivial nearest-node lookup for witness inputs. -/
def demo_nearest : Loc → Nat := fun _ => 0

/-- A search oracle that finds no path, for witness inputs. -/
def demo_astar : (EdgeAttrs → ℚ) → Nat → Nat → Option (List Nat) := fun _ _ _ => none

/-
Theorems.  Each claim Cn of the specification audit is settled by one
theorem below; helper lemmas precede them.
-/

/-- C1: for every edge attribute map and every preference vector, the
edge cost function _get_edge_cost computes exactly the algorithm of
spec section 4.1: defaults t = 1.0 and n = 0.0, base n when
w_noise == 1.0 and the blend w_time*t + w_noise*n otherwise, the 0.7
park factor, the 2.0 junction factor, and 1e-9 replacing a zero result
when t > 0 or n > 0. -/
theorem edge_cost_matches_spec (p : Prefs) (e : EdgeAttrs) :
    _get_edge_cost p e = spec_edge_cost p e := by
  unfold _get_edge_cost spec_edge_cost
  cases hg : p.prefer_parks && _is_truthy (e.green_cover.getD PyVal.pynone) <;>
    cases hj : p.avoid_junctions && _is_truthy (e.is_junction.getD PyVal.pynone) <;>
      simp [hg, hj, mul_one]

/-- C5 counterexample: with w_noise = 1.0 exactly and no modifier
active, an edge whose noise_cost_norm is 0 while time_cost_norm is 1
gets the epsilon 1e-9, not its noise_cost_norm.  The universal
statement of the claim is therefore false. -/
theorem pure_peace_claim_fails :
    Prefs.w_noise { w_time := 0, w_noise := 1, prefer_parks := false,
                    avoid_junctions := false } = 1 ∧
    _get_edge_cost
        { w_time := 0, w_noise := 1, prefer_parks := false, avoid_junctions := false }
        { time_cost_norm := some 1, noise_cost_norm := some 0 } ≠
      ({ time_cost_norm := some 1, noise_cost_norm := some 0 } :
        EdgeAttrs).noise_cost_norm.getD 0 := by
  constructor
  · rfl
  · norm_num [_get_edge_cost, _is_truthy]

/-- C5 amended: with w_noise = 1.0 exactly, _get_edge_cost returns
exactly the noise_cost_norm of the edge regardless of w_time, when the
park discount and the junction penalty do not apply to the edge and
the epsilon floor does not trigger (noise_cost_norm nonzero, or
time_cost_norm not positive). -/
theorem pure_peace_edge_cost (p : Prefs) (e : EdgeAttrs)
    (hw : p.w_noise = 1)
    (hpark : (p.prefer_parks && _is_truthy (e.green_cover.getD PyVal.pynone)) = false)
    (hjunc : (p.avoid_junctions && _is_truthy (e.is_junction.getD PyVal.pynone)) = false)
    (heps : e.noise_cost_norm.getD 0 ≠ 0 ∨ ¬ 0 < e.time_cost_norm.getD 1) :
    _get_edge_cost p e = e.noise_cost_norm.getD 0 := by
  unfold _get_edge_cost
  simp only [hw, hpark, hjunc, eq_self_iff_true, if_true, Bool.false_eq_true, if_false]
  rcases heps with hn | ht
  · rw [if_neg (fun hc => hn hc.1)]
  · by_cases hn : e.noise_cost_norm.getD 0 = 0
    · have hcond : ¬ (e.noise_cost_norm.getD 0 = 0 ∧
          (0 < e.time_cost_norm.getD 1 ∨ 0 < e.noise_cost_norm.getD 0)) := by
        rintro ⟨-, h1 | h2⟩
        · exact ht h1
        · rw [hn] at h2
          exact lt_irrefl 0 h2
      rw [if_neg hcond]
    · rw [if_neg (fun hc => hn hc.1)]

/-- C5 witness: a concrete pure-peace preference vector and edge
satisfying the hypotheses, on which the cost is the noise term. -/
theorem pure_peace_edge_cost_witness :
    Prefs.w_noise { w_time := 1/2, w_noise := 1, prefer_parks := false,
                    avoid_junctions := false } = 1 ∧
    (Prefs.prefer_parks { w_time := 1/2, w_noise := 1, prefer_parks := false,
                          avoid_junctions := false } &&
      _is_truthy (EdgeAttrs.green_cover { noise_cost_norm := some (1/2) } |>.getD
        PyVal.pynone)) = false ∧
    (Prefs.avoid_junctions { w_time := 1/2, w_noise := 1, prefer_parks := false,
                             avoid_junctions := false } &&
      _is_truthy (EdgeAttrs.is_junction { noise_cost_norm := some (1/2) } |>.getD
        PyVal.pynone)) = false ∧
    (EdgeAttrs.noise_cost_norm { noise_cost_norm := some (1/2) } |>.getD 0) ≠ 0 ∧
    _get_edge_cost
        { w_time := 1/2, w_noise := 1, prefer_parks := false, avoid_junctions := false }
        { noise_cost_norm := some (1/2) } =
      (EdgeAttrs.noise_cost_norm { noise_cost_norm := some (1/2) } |>.getD 0) :=
  ⟨rfl, rfl, rfl, by show (1/2 : ℚ) ≠ 0; norm_num,
    pure_peace_edge_cost
      { w_time := 1/2, w_noise := 1, prefer_parks := false, avoid_junctions := false }
      { noise_cost_norm := some (1/2) }
      rfl rfl rfl (Or.inl (by show (1/2 : ℚ) ≠ 0; norm_num))⟩

/-- The quiet-hours test agrees with the explicit hour sets of the
specification. -/
theorem is_quiet_hours_iff (hour : ℤ) :
    is_quiet_hours hour = true ↔
      ((0 ≤ hour ∧ hour ≤ 7) ∨ (10 ≤ hour ∧ hour ≤ 11) ∨
        (15 ≤ hour ∧ hour ≤ 16) ∨ (22 ≤ hour ∧ hour ≤ 23)) := by
  simp [is_quiet_hours, or_assoc]

/-- C2: for every resolved hour in 0..23 and every preference vector,
find_route selects the raw time_cost attribute during quiet hours
(0-7, 10-11, 15-16, 22-23), also during normal hours when
w_time >= 0.70, and the blended _get_edge_cost function exactly during
normal hours with w_time < 0.70. -/
theorem weight_policy (hour : ℤ) (p : Prefs) (h0 : 0 ≤ hour) (h23 : hour ≤ 23) :
    (((0 ≤ hour ∧ hour ≤ 7) ∨ (10 ≤ hour ∧ hour ≤ 11) ∨
        (15 ≤ hour ∧ hour ≤ 16) ∨ (22 ≤ hour ∧ hour ≤ 23)) →
      select_weight p hour = WeightChoice.timeCostAttr) ∧
    (¬ ((0 ≤ hour ∧ hour ≤ 7) ∨ (10 ≤ hour ∧ hour ≤ 11) ∨
        (15 ≤ hour ∧ hour ≤ 16) ∨ (22 ≤ hour ∧ hour ≤ 23)) →
      (7 / 10 : ℚ) ≤ p.w_time →
      select_weight p hour = WeightChoice.timeCostAttr) ∧
    (¬ ((0 ≤ hour ∧ hour ≤ 7) ∨ (10 ≤ hour ∧ hour ≤ 11) ∨
        (15 ≤ hour ∧ hour ≤ 16) ∨ (22 ≤ hour ∧ hour ≤ 23)) →
      p.w_time < 7 / 10 →
      select_weight p hour = WeightChoice.customCost) := by
  refine ⟨fun hq => ?_, fun hq hwt => ?_, fun hq hwt => ?_⟩
  · unfold select_weight
    rw [if_pos ((is_quiet_hours_iff hour).mpr hq)]
  · unfold select_weight
    rw [if_neg (fun hc => hq ((is_quiet_hours_iff hour).mp hc)), if_pos hwt]
  · unfold select_weight
    rw [if_neg (fun hc => hq ((is_quiet_hours_iff hour).mp hc)),
      if_neg (not_le.mpr hwt)]

/-- C2 witness: hour 3 is in range and quiet, so the pure time_cost
weight is selected. -/
theorem weight_policy_witness :
    (0 : ℤ) ≤ 3 ∧ (3 : ℤ) ≤ 23 ∧
    ((((0 : ℤ) ≤ 3 ∧ (3 : ℤ) ≤ 7) ∨ ((10 : ℤ) ≤ 3 ∧ (3 : ℤ) ≤ 11) ∨
        ((15 : ℤ) ≤ 3 ∧ (3 : ℤ) ≤ 16) ∨ ((22 : ℤ) ≤ 3 ∧ (3 : ℤ) ≤ 23)) →
      select_weight { w_time := 1, w_noise := 0, prefer_parks := false,
                      avoid_junctions := false } 3 = WeightChoice.timeCostAttr) ∧
    (¬ (((0 : ℤ) ≤ 3 ∧ (3 : ℤ) ≤ 7) ∨ ((10 : ℤ) ≤ 3 ∧ (3 : ℤ) ≤ 11) ∨
        ((15 : ℤ) ≤ 3 ∧ (3 : ℤ) ≤ 16) ∨ ((22 : ℤ) ≤ 3 ∧ (3 : ℤ) ≤ 23)) →
      (7 / 10 : ℚ) ≤ Prefs.w_time { w_time := 1, w_noise := 0, prefer_parks := false,
                                    avoid_junctions := false } →
      select_weight { w_time := 1, w_noise := 0, prefer_parks := false,
                      avoid_junctions := false } 3 = WeightChoice.timeCostAttr) ∧
    (¬ (((0 : ℤ) ≤ 3 ∧ (3 : ℤ) ≤ 7) ∨ ((10 : ℤ) ≤ 3 ∧ (3 : ℤ) ≤ 11) ∨
        ((15 : ℤ) ≤ 3 ∧ (3 : ℤ) ≤ 16) ∨ ((22 : ℤ) ≤ 3 ∧ (3 : ℤ) ≤ 23)) →
      Prefs.w_time { w_time := 1, w_noise := 0, prefer_parks := false,
                     avoid_junctions := false } < 7 / 10 →
      select_weight { w_time := 1, w_noise := 0, prefer_parks := false,
                      avoid_junctions := false } 3 = WeightChoice.customCost) :=
  ⟨by decide, by decide,
    weight_policy 3
      { w_time := 1, w_noise := 0, prefer_parks := false, avoid_junctions := false }
      (by decide) (by decide)⟩

/-- C10: set_preferences stores its four arguments verbatim, with no
check that the weights lie in [0, 1] or sum to 1 (the statement is
universally quantified over arbitrary rationals), leaves the graph
untouched, and every later cost evaluation and weight selection uses
exactly the stored values. -/
theorem set_preferences_no_validation (st : EngineState) (wt wn : ℚ) (pp aj : Bool) :
    (set_preferences st wt wn pp aj).prefs =
      { w_time := wt, w_noise := wn, prefer_parks := pp, avoid_junctions := aj } ∧
    (set_preferences st wt wn pp aj).G = st.G ∧
    (∀ e : EdgeAttrs,
      _get_edge_cost (set_preferences st wt wn pp aj).prefs e =
        _get_edge_cost { w_time := wt, w_noise := wn, prefer_parks := pp,
                         avoid_junctions := aj } e) ∧
    (∀ hour : ℤ,
      select_weight (set_preferences st wt wn pp aj).prefs hour =
        select_weight { w_time := wt, w_noise := wn, prefer_parks := pp,
                        avoid_junctions := aj } hour) :=
  ⟨rfl, rfl, fun _ => rfl, fun _ => rfl⟩

/-- The table value of the residential road class. -/
theorem noise_score_residential : noise_score_of "residential" = 3 := by
  unfold noise_score_of
  rw [if_neg (by decide), if_neg (by decide), if_pos (by decide)]

/-- C7 counterexample: an edge of length 1 with the highway attribute
absent gets noise_cost 3, not the claimed default weight 5: the source
defaults the road class to residential before the table lookup. -/
theorem noise_default_claim_fails :
    edge_noise_cost none 1 = 3 * 1 ∧
    edge_noise_cost none 1 ≠ claim_noise_weight none * 1 := by
  constructor
  · show noise_score_of "residential" * 1 = 3 * 1
    rw [noise_score_residential]
  · show noise_score_of "residential" * 1 ≠ claim_noise_weight none * 1
    rw [noise_score_residential]
    norm_num [claim_noise_weight]

/-- C7 amended: noise_cost = w * length with w = 10 for
motorway/primary/trunk, 7 for secondary/tertiary, 3 for
residential/living_street/unclassified, 3 also when the highway
attribute is absent (it defaults to residential), and 5 in every other
case. -/
theorem noise_cost_formula (highway : Option String) (length_m : ℚ) :
    edge_noise_cost highway length_m = amended_noise_weight highway * length_m := by
  cases highway with
  | none =>
    show noise_score_of "residential" * length_m = 3 * length_m
    rw [noise_score_residential]
  | some r =>
    unfold edge_noise_cost noise_score_of amended_noise_weight
    simp only [Option.getD_some, List.mem_cons, List.not_mem_nil, or_false]

/-- C4: a concrete multigraph with two parallel edges between one node
pair, the first (key 0) with time_cost 100 and the second with
time_cost 1.  With the string weight time_cost, the networkx search
minimizes over the parallel edges and so traverses the cost-1 edge,
while the analytics read of get_edge_data(u, v)[0] yields the key-0
edge and records time 100: the analytics do not read the edge the
search minimized. -/
theorem parallel_edge_analytics_mismatch :
    nx_multi_attr_weight (fun e => e.time_cost)
        [{ time_cost := some 100 }, { time_cost := some 1 }] = some 1 ∧
    analytics_selected_edge
        [{ time_cost := some 100 }, { time_cost := some 1 }] =
      { time_cost := some 100 } ∧
    (analyze_path false
        [analytics_selected_edge
          [{ time_cost := some 100 }, { time_cost := some 1 }]]).time = 100 ∧
    (100 : ℚ) ≠ 1 := by
  refine ⟨?_, rfl, ?_, by norm_num⟩
  · show list_min [(100 : ℚ), 1] = some 1
    show some (min 100 1) = some 1
    rw [min_def, if_neg (by norm_num)]
  · show (100 : ℚ) + 0 = 100
    norm_num

/-- Python min of a nonempty list is bounded by the initial element. -/
theorem foldl_min_le_init (l : List ℚ) : ∀ a : ℚ, l.foldl min a ≤ a := by
  induction l with
  | nil => intro a; exact le_refl a
  | cons x xs ih => intro a; exact le_trans (ih (min a x)) (min_le_left a x)

/-- Python max of a nonempty list dominates the initial element. -/
theorem init_le_foldl_max (l : List ℚ) : ∀ a : ℚ, a ≤ l.foldl max a := by
  induction l with
  | nil => intro a; exact le_refl a
  | cons x xs ih => intro a; exact le_trans (le_max_left a x) (ih (max a x))

/-- A min fold returns its initial element or a list element. -/
theorem foldl_min_mem (l : List ℚ) : ∀ a : ℚ, l.foldl min a = a ∨ l.foldl min a ∈ l := by
  induction l with
  | nil => intro a; exact Or.inl rfl
  | cons x xs ih =>
    intro a
    rcases ih (min a x) with h | h
    · rw [List.foldl_cons, h]
      rcases min_choice a x with hm | hm
      · exact Or.inl hm
      · right
        rw [hm]
        exact List.mem_cons_self x xs
    · right
      rw [List.foldl_cons]
      exact List.mem_cons_of_mem x h

/-- On a nonempty list the Python min is at most the Python max. -/
theorem list_min_le_list_max (l : List ℚ) (h : l ≠ []) :
    (list_min l).getD 0 ≤ (list_max l).getD 0 := by
  cases l with
  | nil => exact absurd rfl h
  | cons x xs =>
    show xs.foldl min x ≤ xs.foldl max x
    exact le_trans (foldl_min_le_init xs x) (init_le_foldl_max xs x)

/-- On a nonempty list the Python min is an element of the list. -/
theorem list_min_mem (l : List ℚ) (h : l ≠ []) : (list_min l).getD 0 ∈ l := by
  cases l with
  | nil => exact absurd rfl h
  | cons x xs =>
    show xs.foldl min x ∈ x :: xs
    rcases foldl_min_mem xs x with h1 | h1
    · rw [h1]
      exact List.mem_cons_self x xs
    · exact List.mem_cons_of_mem x h1

/-- The range substitution of the source, range if positive else 1,
agrees with the wording of the claim, 1 if the range is zero else the
range, whenever min is at most max. -/
theorem range_ite_eq (mn mx : ℚ) (h : mn ≤ mx) :
    (if 0 < mx - mn then mx - mn else 1) = (if mx - mn = 0 then 1 else mx - mn) := by
  rcases eq_or_lt_of_le (sub_nonneg.mpr h) with h0 | hpos
  · rw [if_neg (by rw [← h0]; exact lt_irrefl 0), if_pos (by rw [← h0])]
  · rw [if_pos hpos, if_neg (ne_of_gt hpos)]

/-- C6 amended: on any graph with at least one edge and at least one
finite time_cost (Python min/max over an empty list raises, which the
two hypotheses exclude), every normalized edge satisfies: infinite
time_cost forces time_cost_norm = 1.0; finite time_cost t gets
(t - min)/(max - min) over the finite time values with denominator
1.0 substituted when the range is zero; noise_cost_norm is the
analogous rescaling over all noise values; and if all finite
time_cost values are equal, every edge with finite time_cost gets
time_cost_norm = 0.0, with no division by zero anywhere. -/
theorem normalization_correct (edges : List RawEdge)
    (hft : finite_times edges ≠ []) (hne : edges ≠ []) :
    ∀ ne ∈ normalize_edges edges,
      (ne.time_cost = PFloat.inf → ne.time_cost_norm = 1) ∧
      (∀ t : ℚ, ne.time_cost = PFloat.fin t →
        ne.time_cost_norm =
          (t - (list_min (finite_times edges)).getD 0) /
            (if (list_max (finite_times edges)).getD 0 -
                (list_min (finite_times edges)).getD 0 = 0 then 1
             else (list_max (finite_times edges)).getD 0 -
                (list_min (finite_times edges)).getD 0)) ∧
      (ne.noise_cost_norm =
        (ne.noise_cost - (list_min (edges.map (fun e => e.noise_cost))).getD 0) /
          (if (list_max (edges.map (fun e => e.noise_cost))).getD 0 -
              (list_min (edges.map (fun e => e.noise_cost))).getD 0 = 0 then 1
           else (list_max (edges.map (fun e => e.noise_cost))).getD 0 -
              (list_min (edges.map (fun e => e.noise_cost))).getD 0)) ∧
      ((∀ q ∈ finite_times edges, ∀ r ∈ finite_times edges, q = r) →
        ∀ t : ℚ, ne.time_cost = PFloat.fin t → ne.time_cost_norm = 0) := by
  have hnoise_ne : edges.map (fun e => e.noise_cost) ≠ [] := by
    cases edges with
    | nil => exact absurd rfl hne
    | cons x xs => exact List.cons_ne_nil _ _
  have htr := range_ite_eq _ _ (list_min_le_list_max _ hft)
  have hnr := range_ite_eq _ _ (list_min_le_list_max _ hnoise_ne)
  intro ne hmem
  simp only [normalize_edges] at hmem
  rw [List.mem_map] at hmem
  obtain ⟨e, he, rfl⟩ := hmem
  simp only [normalize_edge]
  refine ⟨fun hinf => ?_, fun t ht => ?_, ?_, fun hall t ht => ?_⟩
  · rw [show e.time_cost = PFloat.inf from hinf]
  · rw [show e.time_cost = PFloat.fin t from ht, htr]
  · rw [hnr]
  · have htmem : t ∈ finite_times edges := by
      rw [finite_times, List.mem_filterMap]
      refine ⟨e, he, ?_⟩
      rw [show e.time_cost = PFloat.fin t from ht]
    have hmin : (list_min (finite_times edges)).getD 0 ∈ finite_times edges :=
      list_min_mem _ hft
    have hts : t = (list_min (finite_times edges)).getD 0 :=
      hall t htmem _ hmin
    simp only [ht]
    rw [sub_eq_zero.mpr hts, zero_div]

/-- C6 witness: the two-edge demo graph is nonempty, carries a finite
time value, and satisfies every conclusion of the amended
normalization theorem. -/
theorem normalization_correct_witness :
    finite_times demo_raw_edges ≠ [] ∧
    demo_raw_edges ≠ [] ∧
    (∀ ne ∈ normalize_edges demo_raw_edges,
      (ne.time_cost = PFloat.inf → ne.time_cost_norm = 1) ∧
      (∀ t : ℚ, ne.time_cost = PFloat.fin t →
        ne.time_cost_norm =
          (t - (list_min (finite_times demo_raw_edges)).getD 0) /
            (if (list_max (finite_times demo_raw_edges)).getD 0 -
                (list_min (finite_times demo_raw_edges)).getD 0 = 0 then 1
             else (list_max (finite_times demo_raw_edges)).getD 0 -
                (list_min (finite_times demo_raw_edges)).getD 0)) ∧
      (ne.noise_cost_norm =
        (ne.noise_cost -
            (list_min (demo_raw_edges.map (fun e => e.noise_cost))).getD 0) /
          (if (list_max (demo_raw_edges.map (fun e => e.noise_cost))).getD 0 -
              (list_min (demo_raw_edges.map (fun e => e.noise_cost))).getD 0 = 0 then 1
           else (list_max (demo_raw_edges.map (fun e => e.noise_cost))).getD 0 -
              (list_min (demo_raw_edges.map (fun e => e.noise_cost))).getD 0)) ∧
      ((∀ q ∈ finite_times demo_raw_edges, ∀ r ∈ finite_times demo_raw_edges, q = r) →
        ∀ t : ℚ, ne.time_cost = PFloat.fin t → ne.time_cost_norm = 0)) :=
  ⟨by decide, by decide, normalization_correct demo_raw_edges (by decide) (by decide)⟩

/-- C6 counterexample: on a graph whose finite time_cost values are
all equal (they are just the value 5) but which has an infinite-time
edge, not every edge gets time_cost_norm 0.0: the infinite edge gets
1.0.  The literal claim that every edge gets 0.0 is therefore false;
only the edges with finite time_cost do. -/
theorem normalization_all_equal_claim_fails :
    (∀ q ∈ finite_times demo_inf_edges, ∀ r ∈ finite_times demo_inf_edges, q = r) ∧
    ¬ (∀ ne ∈ normalize_edges demo_inf_edges, ne.time_cost_norm = 0) := by
  constructor
  · decide
  · intro hall
    have hmem : ({ time_cost := PFloat.inf, noise_cost := 0 } : RawEdge) ∈
        demo_inf_edges := by decide
    have h1 := hall _ (by
      simp only [normalize_edges]
      exact List.mem_map_of_mem _ hmem)
    exact one_ne_zero h1

/-- A mapped sum over nonnegative values is nonnegative. -/
theorem sum_map_nonneg (f : EdgeAttrs → ℚ) (l : List EdgeAttrs)
    (h : ∀ e ∈ l, 0 ≤ f e) : 0 ≤ (l.map f).sum := by
  apply List.sum_nonneg
  intro x hx
  obtain ⟨e, he, rfl⟩ := List.mem_map.mp hx
  exact h e he

/-- A mapped sum over a filtered list is at most the mapped sum over
the whole list when all values are nonnegative. -/
theorem sum_filter_le_sum_map (p : EdgeAttrs → Bool) (f : EdgeAttrs → ℚ) :
    ∀ l : List EdgeAttrs, (∀ e ∈ l, 0 ≤ f e) →
      ((l.filter p).map f).sum ≤ (l.map f).sum := by
  intro l
  induction l with
  | nil => intro _; exact le_refl _
  | cons a l ih =>
    intro h
    have ha := h a (List.mem_cons_self a l)
    have hrest : ∀ e ∈ l, 0 ≤ f e := fun e he => h e (List.mem_cons_of_mem a he)
    rw [List.filter_cons]
    by_cases hpa : p a = true
    · rw [if_pos hpa]
      simp only [List.map_cons, List.sum_cons]
      exact add_le_add_left (ih hrest) (f a)
    · rw [if_neg hpa]
      simp only [List.map_cons, List.sum_cons]
      calc ((l.filter p).map f).sum ≤ (l.map f).sum := ih hrest
        _ ≤ f a + (l.map f).sum := le_add_of_nonneg_left ha

/-- The green_percent field of analyze_path, unfolded. -/
theorem green_percent_def (q : Bool) (edges : List EdgeAttrs) :
    (analyze_path q edges).green_percent =
      (if 0 < (edges.map (fun e => e.time_cost.getD 0)).sum then
        ((edges.filter (fun e => _is_truthy (e.green_cover.getD PyVal.pynone))).map
            (fun e => e.time_cost.getD 0)).sum /
          (edges.map (fun e => e.time_cost.getD 0)).sum * 100
      else 0) := rfl

/-- The avg_noise field of analyze_path, unfolded. -/
theorem avg_noise_def (q : Bool) (edges : List EdgeAttrs) :
    (analyze_path q edges).avg_noise =
      (if 0 < (edges.map (fun e => e.length.getD 0)).sum then
        (edges.map (fun e => e.noise_cost.getD 0 * analytics_noise_multiplier q)).sum /
          (edges.map (fun e => e.length.getD 0)).sum
      else 0) := rfl

/-- C3: for any resolved hour and any path edge list with nonnegative
raw lengths and times (the data model guarantees both), the analytics
record is: time, the plain sum of raw time_cost; distance, the plain
sum of raw length; avg_noise, the sum of raw noise_cost terms each
scaled by 0.7 exactly when the hour is quiet, divided by the distance
and 0 when the distance is 0; green_percent, 100 times the time on
truthy-green edges over the total time and 0 when the total time is
0.  Moreover the 0.7 multiplier never reaches the search weight:
during quiet hours the weight is the raw unscaled time_cost, and the
weight depends on the hour only through the quiet classification. -/
theorem analytics_formulas (hour : ℤ) (edges : List EdgeAttrs)
    (hlen : ∀ e ∈ edges, 0 ≤ e.length.getD 0)
    (htime : ∀ e ∈ edges, 0 ≤ e.time_cost.getD 0) :
    (analyze_path (is_quiet_hours hour) edges).time =
      (edges.map (fun e => e.time_cost.getD 0)).sum ∧
    (analyze_path (is_quiet_hours hour) edges).distance =
      (edges.map (fun e => e.length.getD 0)).sum ∧
    (analyze_path (is_quiet_hours hour) edges).avg_noise =
      (if (edges.map (fun e => e.length.getD 0)).sum = 0 then 0
       else (edges.map (fun e =>
              e.noise_cost.getD 0 * (if is_quiet_hours hour then 7 / 10 else 1))).sum /
            (edges.map (fun e => e.length.getD 0)).sum) ∧
    (analyze_path (is_quiet_hours hour) edges).green_percent =
      (if (edges.map (fun e => e.time_cost.getD 0)).sum = 0 then 0
       else 100 * ((edges.filter
              (fun e => _is_truthy (e.green_cover.getD PyVal.pynone))).map
              (fun e => e.time_cost.getD 0)).sum /
            (edges.map (fun e => e.time_cost.getD 0)).sum) ∧
    (is_quiet_hours hour = true →
      ∀ (p : Prefs) (e : EdgeAttrs),
        search_edge_weight p hour e = e.time_cost.getD 1) ∧
    (∀ (hour2 : ℤ) (p : Prefs) (e : EdgeAttrs),
      is_quiet_hours hour = is_quiet_hours hour2 →
      search_edge_weight p hour e = search_edge_weight p hour2 e) := by
  have hL : 0 ≤ (edges.map (fun e => e.length.getD 0)).sum := sum_map_nonneg _ _ hlen
  have hT : 0 ≤ (edges.map (fun e => e.time_cost.getD 0)).sum := sum_map_nonneg _ _ htime
  refine ⟨rfl, rfl, ?_, ?_, fun hq p e => ?_, fun hour2 p e hflag => ?_⟩
  · rw [avg_noise_def]
    simp only [analytics_noise_multiplier]
    rcases eq_or_lt_of_le hL with h0 | hpos
    · rw [if_neg (by rw [← h0]; exact lt_irrefl 0), if_pos h0.symm]
    · rw [if_pos hpos, if_neg (ne_of_gt hpos)]
  · rw [green_percent_def]
    rcases eq_or_lt_of_le hT with h0 | hpos
    · rw [if_neg (by rw [← h0]; exact lt_irrefl 0), if_pos h0.symm]
    · rw [if_pos hpos, if_neg (ne_of_gt hpos)]
      ring
  · unfold search_edge_weight select_weight
    rw [if_pos hq]
  · have hsel : select_weight p hour = select_weight p hour2 := by
      unfold select_weight
      rw [hflag]
    unfold search_edge_weight
    rw [hsel]

/-- C3 witness: hour 3 is quiet; the one-edge demo path has
nonnegative length and time, and the analytics equalities hold on
it. -/
theorem analytics_formulas_witness :
    (∀ e ∈ demo_path_edges, 0 ≤ e.length.getD 0) ∧
    (∀ e ∈ demo_path_edges, 0 ≤ e.time_cost.getD 0) ∧
    ((analyze_path (is_quiet_hours 3) demo_path_edges).time =
      (demo_path_edges.map (fun e => e.time_cost.getD 0)).sum ∧
    (analyze_path (is_quiet_hours 3) demo_path_edges).distance =
      (demo_path_edges.map (fun e => e.length.getD 0)).sum ∧
    (analyze_path (is_quiet_hours 3) demo_path_edges).avg_noise =
      (if (demo_path_edges.map (fun e => e.length.getD 0)).sum = 0 then 0
       else (demo_path_edges.map (fun e =>
              e.noise_cost.getD 0 * (if is_quiet_hours 3 then 7 / 10 else 1))).sum /
            (demo_path_edges.map (fun e => e.length.getD 0)).sum) ∧
    (analyze_path (is_quiet_hours 3) demo_path_edges).green_percent =
      (if (demo_path_edges.map (fun e => e.time_cost.getD 0)).sum = 0 then 0
       else 100 * ((demo_path_edges.filter
              (fun e => _is_truthy (e.green_cover.getD PyVal.pynone))).map
              (fun e => e.time_cost.getD 0)).sum /
            (demo_path_edges.map (fun e => e.time_cost.getD 0)).sum) ∧
    (is_quiet_hours 3 = true →
      ∀ (p : Prefs) (e : EdgeAttrs),
        search_edge_weight p 3 e = e.time_cost.getD 1) ∧
    (∀ (hour2 : ℤ) (p : Prefs) (e : EdgeAttrs),
      is_quiet_hours 3 = is_quiet_hours hour2 →
      search_edge_weight p 3 e = search_edge_weight p hour2 e)) :=
  ⟨by decide, by decide,
    analytics_formulas 3 demo_path_edges (by decide) (by decide)⟩

/-- C9: whenever every edge on the path carries a nonnegative raw
time_cost, the computed green_percent lies between 0 and 100: the
green time is a filtered subsum of the total time, and the zero-total
guard returns 0. -/
theorem green_percent_in_range (q : Bool) (edges : List EdgeAttrs)
    (htime : ∀ e ∈ edges, 0 ≤ e.time_cost.getD 0) :
    0 ≤ (analyze_path q edges).green_percent ∧
    (analyze_path q edges).green_percent ≤ 100 := by
  have hT : 0 ≤ (edges.map (fun e => e.time_cost.getD 0)).sum := sum_map_nonneg _ _ htime
  have hTg : 0 ≤ ((edges.filter
      (fun e => _is_truthy (e.green_cover.getD PyVal.pynone))).map
      (fun e => e.time_cost.getD 0)).sum := by
    apply sum_map_nonneg
    intro e he
    exact htime e (List.mem_of_mem_filter he)
  have hle := sum_filter_le_sum_map
    (fun e => _is_truthy (e.green_cover.getD PyVal.pynone))
    (fun e => e.time_cost.getD 0) edges htime
  rw [green_percent_def]
  constructor
  · by_cases hpos : 0 < (edges.map (fun e => e.time_cost.getD 0)).sum
    · rw [if_pos hpos]
      exact mul_nonneg (div_nonneg hTg (le_of_lt hpos)) (by norm_num)
    · rw [if_neg hpos]
  · by_cases hpos : 0 < (edges.map (fun e => e.time_cost.getD 0)).sum
    · rw [if_pos hpos]
      have hdiv := (div_le_one hpos).mpr hle
      calc ((edges.filter
              (fun e => _is_truthy (e.green_cover.getD PyVal.pynone))).map
              (fun e => e.time_cost.getD 0)).sum /
            (edges.map (fun e => e.time_cost.getD 0)).sum * 100
          ≤ 1 * 100 := mul_le_mul_of_nonneg_right hdiv (by norm_num)
        _ = 100 := one_mul 100
    · rw [if_neg hpos]
      norm_num

/-- C9 witness: on the demo path all times are nonnegative and the
green percentage is within bounds. -/
theorem green_percent_in_range_witness :
    (∀ e ∈ demo_path_edges, 0 ≤ e.time_cost.getD 0) ∧
    (0 ≤ (analyze_path false demo_path_edges).green_percent ∧
      (analyze_path false demo_path_edges).green_percent ≤ 100) :=
  ⟨by decide, green_percent_in_range false demo_path_edges (by decide)⟩

/-- On any failing input check, find_route_result is the matching
ValueError, decided before the search oracle is ever consulted. -/
theorem find_route_result_input_error (st : EngineState)
    (geocode : String → Option Loc) (nearest : Loc → Nat)
    (astar : (EdgeAttrs → ℚ) → Nat → Nat → Option (List Nat))
    (sa ea : Option String) (sh : Option ℤ) (ch : ℤ)
    (hfail : addr_missing sa = true ∨ addr_missing ea = true ∨
      geocode (sa.getD "") = none ∨ geocode (ea.getD "") = none) :
    find_route_result st geocode nearest astar sa ea sh ch =
      (if addr_missing sa || addr_missing ea then
        Except.error (RouteError.valueError "Start and end addresses are required.")
      else
        Except.error (RouteError.valueError "Could not geocode one or both addresses.")) := by
  by_cases hm : (addr_missing sa || addr_missing ea) = true
  · rw [if_pos hm]
    unfold find_route_result
    rw [if_pos hm]
  · rw [if_neg hm]
    unfold find_route_result
    rw [if_neg hm]
    have hm2 := hm
    rw [Bool.or_eq_true, not_or] at hm2
    rcases hfail with h | h | h | h
    · exact absurd h hm2.1
    · exact absurd h hm2.2
    · rw [h]
    · cases hga : geocode (sa.getD "") with
      | none => rfl
      | some l => rw [h]

/-- C8: whenever the start or end address is missing or empty, or the
geocoder resolves either address to nothing, find_route yields a
ValueError, its outcome is independent of the search oracle (so no A*
search influences it), and the engine state, i.e. the preference
vector and the graph, is returned unchanged by this and by every
other query. -/
theorem find_route_input_error (st : EngineState)
    (geocode : String → Option Loc) (nearest : Loc → Nat)
    (astar : (EdgeAttrs → ℚ) → Nat → Nat → Option (List Nat))
    (sa ea : Option String) (sh : Option ℤ) (ch : ℤ)
    (hfail : addr_missing sa = true ∨ addr_missing ea = true ∨
      geocode (sa.getD "") = none ∨ geocode (ea.getD "") = none) :
    (find_route st geocode nearest astar sa ea sh ch).1 = st ∧
    (∃ msg, (find_route st geocode nearest astar sa ea sh ch).2 =
      Except.error (RouteError.valueError msg)) ∧
    (∀ astar2, find_route st geocode nearest astar sa ea sh ch =
      find_route st geocode nearest astar2 sa ea sh ch) ∧
    (∀ geocode2 nearest2 astar2 sa2 ea2 sh2 ch2,
      (find_route st geocode2 nearest2 astar2 sa2 ea2 sh2 ch2).1 = st) := by
  refine ⟨rfl, ?_, ?_, fun _ _ _ _ _ _ _ => rfl⟩
  · show ∃ msg, find_route_result st geocode nearest astar sa ea sh ch =
      Except.error (RouteError.valueError msg)
    rw [find_route_result_input_error st geocode nearest astar sa ea sh ch hfail]
    by_cases hm : (addr_missing sa || addr_missing ea) = true
    · rw [if_pos hm]
      exact ⟨_, rfl⟩
    · rw [if_neg hm]
      exact ⟨_, rfl⟩
  · intro astar2
    unfold find_route
    rw [find_route_result_input_error st geocode nearest astar sa ea sh ch hfail,
      find_route_result_input_error st geocode nearest astar2 sa ea sh ch hfail]

/-- C8 witness: with a geocoder that resolves nothing, a concrete
query fails with a ValueError, independently of the search oracle,
and the engine state is unchanged. -/
theorem find_route_input_error_witness :
    (addr_missing (some "Times Square") = true ∨
      addr_missing (some "Washington Square") = true ∨
      demo_geocode ((some "Times Square").getD "") = none ∨
      demo_geocode ((some "Washington Square").getD "") = none) ∧
    ((find_route demo_engine demo_geocode demo_nearest demo_astar
        (some "Times Square") (some "Washington Square") none 12).1 = demo_engine ∧
    (∃ msg, (find_route demo_engine demo_geocode demo_nearest demo_astar
        (some "Times Square") (some "Washington Square") none 12).2 =
      Except.error (RouteError.valueError msg)) ∧
    (∀ astar2, find_route demo_engine demo_geocode demo_nearest demo_astar
        (some "Times Square") (some "Washington Square") none 12 =
      find_route demo_engine demo_geocode demo_nearest astar2
        (some "Times Square") (some "Washington Square") none 12) ∧
    (∀ geocode2 nearest2 astar2 sa2 ea2 sh2 ch2,
      (find_route demo_engine geocode2 nearest2 astar2 sa2 ea2 sh2 ch2).1 =
        demo_engine)) :=
  ⟨Or.inr (Or.inr (Or.inl rfl)),
    find_route_input_error demo_engine demo_geocode demo_nearest demo_astar
      (some "Times Square") (some "Washington Square") none 12
      (Or.inr (Or.inr (Or.inl rfl)))⟩

end SilentStride
